import Mathlib

/-!
Shallow embedding of the trend ranking and surge scoring engine of
trendix-ai-server, and proofs of the spec claims about it.

Sources embedded here:
- content/infrastructure/repository/content_repository_impl.py
  (fetch_popular_videos, fetch_rising_videos, fetch_surge_videos)
- content/application/usecase/surge_feature_usecase.py
  (ViewSample, find_reference_view, compute_surge_features)
- content/application/usecase/trend_featured_usecase.py
  (dedup_by_embedding, enforce_diversity)

SQL integers are modelled as Int, SQL numeric averages and rational
arithmetic as Rat, Python floats as Real.  Database timestamps are real
numbers of seconds, snapshot dates integers counting days.
-/

namespace Trendix

open scoped Classical

/-! ### fetch_popular_videos: channel-size-normalized popularity -/

/-- One row of the `base` CTE of fetch_popular_videos, restricted to the
fields the normalization uses. -/
structure PopularRow where
  channel_id : String
  view_count : ℤ
deriving DecidableEq

/-- The window aggregate `AVG(v.view_count) OVER (PARTITION BY v.channel_id)`: the mean view
count over all candidate rows sharing the channel. -/
def channel_avg_view (rows : List PopularRow) (ch : String) : ℚ :=
  let vs := (rows.filter (fun r => r.channel_id = ch)).map (fun r => (r.view_count : ℚ))
  vs.sum / vs.length

/-- The expression `CASE WHEN channel_avg_view > 0 THEN view_count / channel_avg_view
ELSE view_count END` of fetch_popular_videos. -/
def normalized_view_score (rows : List PopularRow) (r : PopularRow) : ℚ :=
  let avg := channel_avg_view rows r.channel_id
  if 0 < avg then (r.view_count : ℚ) / avg else (r.view_count : ℚ)

/-! ### fetch_rising_videos: velocity floored at zero -/

/-- The column `GREATEST(COALESCE(c.view_count, l.view_count, 0) - COALESCE(p.view_count, 0), 0)
/ NULLIF(:velocity_days, 0)` of fetch_rising_videos.  `curr` and `prev` are the
two COALESCE results; Postgres divides integers by truncation toward zero, and
NULLIF makes the result NULL when velocity_days is zero. -/
def rising_view_velocity (curr prev velocity_days : ℤ) : Option ℤ :=
  if velocity_days = 0 then none
  else some (Int.tdiv (max (curr - prev) 0) velocity_days)

/-! ### fetch_surge_videos: snapshot lookups for view_count_prev -/

/-- One row of video_metrics_snapshot for a fixed (video_id, platform):
dates count calendar days, at most one row per day. -/
structure Snapshot where
  snapshot_date : ℤ
  view_count : ℤ
deriving DecidableEq

/-- Evaluation of `ORDER BY snapshot_date DESC LIMIT 1` over an already filtered row list:
the row with the greatest snapshot_date (the earlier row winning ties, which
cannot occur with one snapshot per day). -/
def max_by_date : List Snapshot → Option Snapshot
  | [] => none
  | s :: rest =>
      match max_by_date rest with
      | none => some s
      | some t => if t.snapshot_date ≤ s.snapshot_date then some s else some t

/-- The `curr` lateral join of fetch_surge_videos: the most recent snapshot
with `snapshot_date <= :to_date`. -/
def latest_at_or_before (hist : List Snapshot) (d : ℤ) : Option Snapshot :=
  max_by_date (hist.filter (fun s => s.snapshot_date ≤ d))

/-- The `prev` lateral join of fetch_surge_videos: the most recent snapshot
with `snapshot_date < (SELECT MAX(s2.snapshot_date) ...)`, i.e. strictly
before the video's own latest snapshot date.  The `:prev_anchor` /
velocity_days parameter does not occur in this query. -/
def prev_before_latest (hist : List Snapshot) : Option Snapshot :=
  match max_by_date hist with
  | none => none
  | some m => max_by_date (hist.filter (fun s => s.snapshot_date < m.snapshot_date))

/-- The in-loop fallback query of fetch_surge_videos: the most recent snapshot
with `snapshot_date <= CURRENT_DATE - INTERVAL '1 day'` whose view_count
differs from the current value.  (The query also hardcodes
platform = 'youtube'; this embedding models the single (video, platform)
series the surrounding query works on.) -/
def alt_distinct_snapshot (hist : List Snapshot) (today current_view : ℤ) : Option Snapshot :=
  max_by_date
    (hist.filter (fun s => s.snapshot_date ≤ today - 1 ∧ s.view_count ≠ current_view))

/-- The guard `if view_prev == view_now and view_prev > 0:` takes the fallback snapshot's
view_count when the lookup finds one; a failing or empty lookup leaves
view_prev unchanged. -/
def resolve_view_prev (view_now view_prev : ℤ) (alt : Option ℤ) : ℤ :=
  if view_prev = view_now ∧ 0 < view_prev then alt.getD view_prev else view_prev

/-- The column `COALESCE(curr.view_count, v.view_count, 0)` of fetch_surge_videos. -/
def surge_view_now (hist : List Snapshot) (video_view_count : Option ℤ) (today : ℤ) : ℤ :=
  match latest_at_or_before hist today with
  | some s => s.view_count
  | none => video_view_count.getD 0

/-- The column `COALESCE(prev.view_count, 0)` of fetch_surge_videos. -/
def surge_view_prev_raw (hist : List Snapshot) : ℤ :=
  ((prev_before_latest hist).map (fun s => s.view_count)).getD 0

/-- view_count_prev as the scoring loop of fetch_surge_videos finally uses it:
the raw SQL value plus the nearest-earlier-distinct fallback. -/
def surge_view_prev (hist : List Snapshot) (video_view_count : Option ℤ) (today : ℤ) : ℤ :=
  resolve_view_prev (surge_view_now hist video_view_count today)
    (surge_view_prev_raw hist)
    ((alt_distinct_snapshot hist today
        (surge_view_now hist video_view_count today)).map (fun s => s.view_count))

/-- The lookup claim C2 describes, following the spec's words: the most recent
snapshot at or before now minus velocity_days days. -/
def spec_prev_lookup (hist : List Snapshot) (today velocity_days : ℤ) : Option Snapshot :=
  latest_at_or_before hist (today - velocity_days)

/-! ### surge_feature_usecase.py: windowed surge features -/

/-- A single view-count measurement.  Timestamps are rational numbers of
minutes, so that the `total_seconds() / 60.0` arithmetic of the source is
exact. -/
structure ViewSample where
  timestamp : ℚ
  view_count : ℤ
deriving DecidableEq

/-- The helper `_find_reference_view`: the view_count of the most recent sample at or
before target_time.  The loop keeps overwriting `ref` while samples qualify
and breaks at the first later sample. -/
def find_reference_view (samples : List ViewSample) (target_time : ℚ) : Option ℤ :=
  match samples with
  | [] => none
  | s :: rest =>
      if s.timestamp ≤ target_time then
        some ((find_reference_view rest target_time).getD s.view_count)
      else none

/-- The key order of `sorted(list(samples), key=lambda s: s.timestamp)`. -/
def sample_le (a b : ViewSample) : Prop := a.timestamp ≤ b.timestamp

instance : DecidableRel sample_le := fun a b =>
  inferInstanceAs (Decidable (a.timestamp ≤ b.timestamp))

instance : IsTotal ViewSample sample_le :=
  ⟨fun a b => le_total a.timestamp b.timestamp⟩

instance : IsTrans ViewSample sample_le :=
  ⟨fun _ _ _ h1 h2 => le_trans h1 h2⟩

/-- The inner `_delta_and_growth(window_minutes)` of compute_surge_features, for a
history whose last sample is at time `now_` with view count `views_now`. -/
def delta_and_growth (history : List ViewSample) (now_ : ℚ) (views_now : ℤ)
    (window_minutes : ℤ) : Option ℚ × Option ℚ × Option ℚ :=
  let target_time := now_ - (window_minutes : ℚ)
  match find_reference_view history target_time with
  | none => (none, none, none)
  | some prev_views =>
      let delta : ℚ := ((views_now - prev_views : ℤ) : ℚ)
      let base : ℚ := ((if 0 < prev_views then prev_views else 1 : ℤ) : ℚ)
      let elapsed_minutes : ℚ := max (now_ - target_time) 1
      (some delta, some (delta / base), some (delta / elapsed_minutes))

/-- The feature bundle of surge_feature_usecase.py (its numeric fields; the
source stores floats, modelled as exact rationals). -/
structure SurgeFeatures where
  delta_views_10m : Option ℚ
  delta_views_30m : Option ℚ
  delta_views_1h : Option ℚ
  delta_views_6h : Option ℚ
  growth_rate_10m : Option ℚ
  growth_rate_30m : Option ℚ
  growth_rate_1h : Option ℚ
  growth_rate_6h : Option ℚ
  acceleration_10m_vs_30m : Option ℚ
  age_minutes : Option ℚ
  age_hours : Option ℚ
  baseline_velocity_10m_per_min : Option ℚ
  velocity_10m_per_min : Option ℚ
  ratio_velocity_10m_to_baseline : Option ℚ
  co_movement_score : Option ℚ
deriving DecidableEq

/-- The default `SurgeFeatures()`: every field is None. -/
def SurgeFeatures.empty : SurgeFeatures :=
  ⟨none, none, none, none, none, none, none, none, none, none, none, none,
    none, none, none⟩

/-- compute_surge_features.  The windows are the `window_*` int parameters
(defaults 10, 30, 60, 360 at the call boundary); the channel baseline list
holds the non-None velocity samples. -/
def compute_surge_features (samples : List ViewSample) (published_at : Option ℚ)
    (window_10m window_30m window_1h window_6h : ℤ)
    (channel_baseline_velocities_10m : List ℚ)
    (co_movement_score : Option ℚ) : SurgeFeatures :=
  let history := List.insertionSort sample_le samples
  match history.getLast? with
  | none => SurgeFeatures.empty
  | some now_sample =>
      let now_ := now_sample.timestamp
      let views_now := now_sample.view_count
      let r10 := delta_and_growth history now_ views_now window_10m
      let r30 := delta_and_growth history now_ views_now window_30m
      let r1h := delta_and_growth history now_ views_now window_1h
      let r6h := delta_and_growth history now_ views_now window_6h
      let acceleration : Option ℚ :=
        match r10.2.1, r30.2.1 with
        | some g10, some g30 => some (g10 - g30)
        | _, _ => none
      let age_minutes : Option ℚ := published_at.map (fun p => max (now_ - p) 0)
      let age_hours : Option ℚ := age_minutes.map (fun m => m / 60)
      let baseline : Option ℚ :=
        if channel_baseline_velocities_10m = [] then none
        else some (channel_baseline_velocities_10m.sum /
          channel_baseline_velocities_10m.length)
      let ratio : Option ℚ :=
        match r10.2.2, baseline with
        | some v10, some b => if 0 < b then some (v10 / b) else none
        | _, _ => none
      { delta_views_10m := r10.1, delta_views_30m := r30.1,
        delta_views_1h := r1h.1, delta_views_6h := r6h.1,
        growth_rate_10m := r10.2.1, growth_rate_30m := r30.2.1,
        growth_rate_1h := r1h.2.1, growth_rate_6h := r6h.2.1,
        acceleration_10m_vs_30m := acceleration,
        age_minutes := age_minutes, age_hours := age_hours,
        baseline_velocity_10m_per_min := baseline,
        velocity_10m_per_min := r10.2.2,
        ratio_velocity_10m_to_baseline := ratio,
        co_movement_score := co_movement_score }

/-! ### dedup_by_embedding of trend_featured_usecase.py -/

/-- Dot product of two embedding vectors; zip truncates to the shorter
vector as Python zip does. -/
noncomputable def dot (a b : List ℝ) : ℝ :=
  (List.zipWith (fun x y => x * y) a b).sum

/-- Modelled from the spec: `cosine_similarity` is imported from
`content.utils.embedding`, a module that is not among the sources.  The spec
(section 4.5) defines it as `dot(a,b) / (|a|*|b|)`, treated as 0 if either
vector has zero magnitude. -/
noncomputable def cosine_similarity (a b : List ℝ) : ℝ :=
  if Real.sqrt (dot a a) = 0 ∨ Real.sqrt (dot b b) = 0 then 0
  else dot a b / (Real.sqrt (dot a a) * Real.sqrt (dot b b))

/-- The expression `max(cosine_similarity(emb, ke) for ke in kept_embeds)` over a nonempty
kept list: binary max folded over the generator, seeded with the first
element.  (The empty case is unreachable in the source: the max is only taken
when kept_embeds is nonempty.) -/
noncomputable def sim_max (emb : List ℝ) : List (List ℝ) → ℝ
  | [] => 0
  | k :: ks =>
      (ks.map (fun ke => cosine_similarity emb ke)).foldl max
        (cosine_similarity emb k)

/-- One iteration of the keep loop of `_dedup_by_embedding`: an item with its
embedding is appended unless some already-kept embedding reaches the
threshold; the first item is kept unconditionally. -/
noncomputable def dedup_step {α : Type} (threshold : ℝ)
    (st : List α × List (List ℝ)) (p : α × List ℝ) :
    List α × List (List ℝ) :=
  if st.2 = [] then (st.1 ++ [p.1], st.2 ++ [p.2])
  else if threshold ≤ sim_max p.2 st.2 then st
  else (st.1 ++ [p.1], st.2 ++ [p.2])

/-- The method `_dedup_by_embedding`: an embedding failure (None) returns the input
unchanged; otherwise the greedy keep loop runs over the items zipped with
their embeddings. -/
noncomputable def dedup_by_embedding {α : Type} (items : List α)
    (embeddings : Option (List (List ℝ))) (threshold : ℝ) : List α :=
  match embeddings with
  | none => items
  | some es => ((items.zip es).foldl (dedup_step threshold) ([], [])).1

/-! ### fetch_surge_videos: freshness, surge score, ranking, cache writes -/

/-- Python `round(x, n)`, modelled over the reals with a rational result.
The source rounds binary floats, which are never exact decimal halves, so
round-half-up coincides with Python's round-half-even on every value the
code produces. -/
noncomputable def roundTo (n : ℕ) (x : ℝ) : ℚ :=
  ((round (x * 10 ^ n) : ℤ) : ℚ) / 10 ^ n

/-- The constant `freshness_decay_rate = 0.05`. -/
def freshness_decay_rate : ℝ := 0.05

/-- The value `freshness_score = math.exp(-freshness_decay_rate * age_hours)`. -/
noncomputable def freshness_score (age_hours : ℝ) : ℝ :=
  Real.exp (-freshness_decay_rate * age_hours)

/-- The age-bracket bonus multiplier of fetch_surge_videos. -/
noncomputable def freshness_bonus (age_hours : ℝ) : ℝ :=
  if age_hours ≤ 24 then 1.5
  else if age_hours ≤ 48 then 1.2
  else if age_hours ≤ 72 then 1.1
  else 1.0

/-- The factor `base_popularity = math.log(max(view_now, 1) + 10)`. -/
noncomputable def base_popularity (view_now : ℤ) : ℝ :=
  Real.log (((max view_now 1 : ℤ) : ℝ) + 10)

/-- The factor `velocity_factor` given by the row velocity divided by 1000. -/
noncomputable def velocity_factor (view_velocity : ℤ) : ℝ :=
  (view_velocity : ℝ) / 1000

/-- The factor `growth_factor = growth_rate * 100`. -/
noncomputable def growth_factor (growth_rate : ℝ) : ℝ := growth_rate * 100

/-- The factor `freshness_factor = freshness_score_with_bonus * 50`. -/
noncomputable def freshness_factor (freshness_score_with_bonus : ℝ) : ℝ :=
  freshness_score_with_bonus * 50

/-- The composite `surge_score` local of fetch_surge_videos, before the
2-decimal rounding applied on storage. -/
noncomputable def surge_score (view_now view_velocity : ℤ)
    (growth_rate freshness_score_with_bonus : ℝ) : ℝ :=
  growth_factor growth_rate + velocity_factor view_velocity
    + base_popularity view_now * 0.1
    + freshness_factor freshness_score_with_bonus

/-- One SQL row of fetch_surge_videos, restricted to the fields the scoring
loop uses.  view_count and view_count_prev are the COALESCE results; the
view_velocity column is computed by Postgres integer division.  published_at
is an absolute timestamp in seconds (None when unknown). -/
structure SurgeRow where
  video_id : String
  platform : Option String
  view_count : ℤ
  view_count_prev : ℤ
  view_velocity : ℤ
  published_at : Option ℝ

/-- The output item of the scoring loop (the dict fields relevant to the
claims; rounded fields store rationals, raw floats store reals). -/
structure SurgeItem where
  video_id : String
  platform : Option String
  view_count : ℤ
  age_hours : Option ℝ
  freshness_score : ℚ
  freshness_bonus : ℝ
  freshness_score_with_bonus : ℚ
  view_count_change : ℤ
  growth_rate_window : ℝ
  surge_score : ℚ
  surge_components : ℚ × ℚ × ℚ × ℚ
  trending_rank : ℕ

/-- view_count_prev after the in-loop distinct-value fallback, for a row
whose fallback lookup returned `alt`. -/
def surge_row_prev (r : SurgeRow) (alt : Option ℤ) : ℤ :=
  resolve_view_prev r.view_count r.view_count_prev alt

/-- The value `growth_rate = delta_views / base_views if view_prev > 0 else 0.0`. -/
noncomputable def surge_growth_rate (view_now view_prev : ℤ) : ℝ :=
  if 0 < view_prev then ((view_now - view_prev : ℤ) : ℝ) / (view_prev : ℝ)
  else 0

/-- The per-row growth rate with the fallback-resolved previous count. -/
noncomputable def surge_row_growth (r : SurgeRow) (alt : Option ℤ) : ℝ :=
  surge_growth_rate r.view_count (surge_row_prev r alt)

/-- The age in hours from published_at: seconds elapsed, clamped at zero, divided
by 60 twice. -/
noncomputable def row_age_hours (now : ℝ) (r : SurgeRow) : Option ℝ :=
  r.published_at.map (fun p => max (now - p) 0 / 60 / 60)

/-- The value `freshness_score_with_bonus`: product of score and bonus when
published_at is known, the neutral 0.5 otherwise. -/
noncomputable def surge_row_fwb (now : ℝ) (r : SurgeRow) : ℝ :=
  match row_age_hours now r with
  | some a => freshness_score a * freshness_bonus a
  | none => 0.5

/-- The full-precision composite score of one row. -/
noncomputable def surge_row_total (now : ℝ) (r : SurgeRow) (alt : Option ℤ) : ℝ :=
  surge_score r.view_count r.view_velocity (surge_row_growth r alt)
    (surge_row_fwb now r)

/-- The body of the first loop of fetch_surge_videos: build the enriched item
dict for one row.  `alt` is the result of the fallback snapshot query
(None when the query found nothing or raised).  The trending_rank assigned
here is overwritten by the post-sort loop. -/
noncomputable def build_surge_item (now : ℝ) (r : SurgeRow) (alt : Option ℤ) :
    SurgeItem :=
  { video_id := r.video_id
    platform := r.platform
    view_count := r.view_count
    age_hours := row_age_hours now r
    freshness_score :=
      roundTo 4 (match row_age_hours now r with
        | some a => freshness_score a
        | none => 0.5)
    freshness_bonus :=
      match row_age_hours now r with
      | some a => freshness_bonus a
      | none => 1.0
    freshness_score_with_bonus := roundTo 4 (surge_row_fwb now r)
    view_count_change := r.view_count - surge_row_prev r alt
    growth_rate_window := surge_row_growth r alt
    surge_score := roundTo 2 (surge_row_total now r alt)
    surge_components :=
      (roundTo 2 (growth_factor (surge_row_growth r alt)),
       roundTo 2 (velocity_factor r.view_velocity),
       roundTo 2 (base_popularity r.view_count * 0.1),
       roundTo 2 (freshness_factor (surge_row_fwb now r)))
    trending_rank := 0 }

/-- The sort key order of `sorted(result, key=lambda x: x.get("surge_score")
or 0.0, reverse=True)`: descending by stored score.  (`or 0.0` only replaces
a 0.0 score by itself, so the key is always the stored score.) -/
def surge_key_le (a b : SurgeItem) : Prop := b.surge_score ≤ a.surge_score

instance : DecidableRel surge_key_le := fun a b =>
  inferInstanceAs (Decidable (b.surge_score ≤ a.surge_score))

instance : IsTotal SurgeItem surge_key_le :=
  ⟨fun a b => le_total b.surge_score a.surge_score⟩

instance : IsTrans SurgeItem surge_key_le :=
  ⟨fun _ _ _ h1 h2 => le_trans h2 h1⟩

/-- Python's `sorted` is a stable sort; insertion sort with the descending
key order realizes the same (unique) stable-sorted permutation. -/
noncomputable def sort_by_surge_score (l : List SurgeItem) : List SurgeItem :=
  List.insertionSort surge_key_le l

/-- A video_score upsert the loop issues. -/
structure ScoreWrite where
  video_id : String
  platform : String
  trend_score : ℚ
deriving DecidableEq

/-- Transaction state of the session: committed rows and the statements
executed since the last commit. -/
structure DbState where
  committed : List ScoreWrite
  pending : List ScoreWrite
deriving DecidableEq

/-- The clause `ON CONFLICT (video_id) DO UPDATE`: last writer wins per video_id. -/
def apply_upsert (db : List ScoreWrite) (w : ScoreWrite) : List ScoreWrite :=
  (db.filter (fun x => x.video_id ≠ w.video_id)) ++ [w]

/-- One `db.execute(INSERT ... ON CONFLICT ...)` wrapped in try/except pass:
a failing execute leaves the transaction unchanged. -/
def upsert_trend_score (db : DbState) (fails : Bool) (w : ScoreWrite) : DbState :=
  if fails then db else ⟨db.committed, apply_upsert db.pending w⟩

/-- The final `db.commit()` wrapped in try/except rollback: failure discards
the pending statements, success applies them. -/
def commit_scores (db : DbState) (fails : Bool) : DbState :=
  if fails then ⟨db.committed, []⟩
  else ⟨db.pending.foldl apply_upsert db.committed, []⟩

/-- The second loop of fetch_surge_videos: enumerate the sorted list from 1,
set trending_rank, and fire the per-item cache write (whose failure is
swallowed). -/
def rank_and_persist (fails : ℕ → Bool) :
    List SurgeItem → ℕ → DbState → List SurgeItem × DbState
  | [], _, db => ([], db)
  | it :: rest, idx, db =>
      let it' := { it with trending_rank := idx }
      let db' := upsert_trend_score db (fails idx)
        ⟨it'.video_id, it'.platform.getD "youtube", it'.surge_score⟩
      let rec_ := rank_and_persist fails rest (idx + 1) db'
      (it' :: rec_.1, rec_.2)

/-- fetch_surge_videos after the SQL fetch: build the items, sort by stored
surge_score descending, assign dense ranks while cache-writing each score,
commit best-effort, and return the sorted list.  Each row is paired with the
result of its fallback snapshot lookup. -/
noncomputable def fetch_surge_videos (now : ℝ)
    (rows : List (SurgeRow × Option ℤ)) (upsert_fails : ℕ → Bool)
    (commit_fails : Bool) (db : DbState) : List SurgeItem × DbState :=
  let result := rows.map (fun p => build_surge_item now p.1 p.2)
  let result_sorted := sort_by_surge_score result
  let ranked := rank_and_persist upsert_fails result_sorted 1 db
  (ranked.1, commit_scores ranked.2 commit_fails)

/-- A concrete candidate row for the rank tie-break analysis: current count
131062 (so max(view_count,1)+10 = 2^17), previous count 100000, one-day
velocity 31062, unknown publish time. -/
def rowA : SurgeRow := ⟨"A", some "youtube", 131062, 100000, 31062, none⟩

/-- A second candidate row: current count 262134 (max(view_count,1)+10 =
2^18), previous count 219505, one-day velocity 42629, unknown publish time.
Its SQL velocity exceeds rowA's, so the store returns it first. -/
def rowB : SurgeRow := ⟨"B", some "youtube", 262134, 219505, 42629, none⟩

/-! ### enforce_diversity of trend_featured_usecase.py -/

/-- Python truthiness of a `dict.get` result: None and the empty string are
falsy. -/
def truthy_str : Option String → Bool
  | none => false
  | some s => !(s == "")

/-- The adjacency test of enforce_diversity: the next item shares a truthy
category or channel_id with the last item already placed. -/
def dup_adjacent {α : Type} (category channel_id : α → Option String) (last item : α) : Bool :=
  (truthy_str (category item) && (category item == category last))
    || (truthy_str (channel_id item) && (channel_id item == channel_id last))

/-- enforce_diversity: walks the list, and for each item either
`result.append(item)` (when the adjacency test fires) or
`result.insert(len(result), item)` (otherwise).  Items are Python dicts;
the two accessor functions stand for `item.get("category")` and
`item.get("channel_id")`. -/
def enforce_diversity {α : Type} (category channel_id : α → Option String)
    (items : List α) : List α :=
  items.foldl
    (fun result item =>
      match result.getLast? with
      | some last =>
          if dup_adjacent category channel_id last item then
            result ++ [item]
          else
            result ++ [item]
      | none => result ++ [item])
    []

end Trendix

namespace Trendix

/-! ## Helper lemmas -/

theorem max_by_date_mem {l : List Snapshot} {p : Snapshot}
    (h : max_by_date l = some p) : p ∈ l := by
  induction l with
  | nil => simp [max_by_date] at h
  | cons s rest ih =>
      cases hr : max_by_date rest with
      | none =>
          simp only [max_by_date, hr] at h
          obtain rfl := Option.some.inj h
          exact List.mem_cons_self _ _
      | some t =>
          simp only [max_by_date, hr] at h
          by_cases hle : t.snapshot_date ≤ s.snapshot_date
          · rw [if_pos hle] at h
            obtain rfl := Option.some.inj h
            exact List.mem_cons_self _ _
          · rw [if_neg hle] at h
            obtain rfl := Option.some.inj h
            exact List.mem_cons_of_mem _ (ih hr)

theorem max_by_date_eq_none {l : List Snapshot} :
    max_by_date l = none ↔ l = [] := by
  cases l with
  | nil => simp [max_by_date]
  | cons s rest =>
      cases hr : max_by_date rest with
      | none => simp [max_by_date, hr]
      | some t =>
          by_cases hle : t.snapshot_date ≤ s.snapshot_date <;>
            simp [max_by_date, hr, hle]

theorem max_by_date_le : ∀ {l : List Snapshot} {p : Snapshot},
    max_by_date l = some p →
    ∀ q ∈ l, q.snapshot_date ≤ p.snapshot_date := by
  intro l
  induction l with
  | nil => intro p h; simp [max_by_date] at h
  | cons s rest ih =>
      intro p h q hq
      cases hr : max_by_date rest with
      | none =>
          simp only [max_by_date, hr] at h
          have hsp : s = p := Option.some.inj h
          have hre : rest = [] := max_by_date_eq_none.mp hr
          subst hre
          have hqs : q = s := by simpa using hq
          exact le_of_eq (by rw [hqs, hsp])
      | some t =>
          simp only [max_by_date, hr] at h
          by_cases hle : t.snapshot_date ≤ s.snapshot_date
          · rw [if_pos hle] at h
            have hsp : s = p := Option.some.inj h
            rcases List.mem_cons.mp hq with hqs | hq'
            · exact le_of_eq (by rw [hqs, hsp])
            · exact le_trans (le_trans (ih hr q hq') hle)
                (le_of_eq (by rw [hsp]))
          · rw [if_neg hle] at h
            have htp : t = p := Option.some.inj h
            rcases List.mem_cons.mp hq with hqs | hq'
            · have h1 : s.snapshot_date < p.snapshot_date :=
                htp ▸ lt_of_not_le hle
              rw [hqs]
              exact le_of_lt h1
            · exact htp ▸ ih hr q hq'

theorem find_reference_eq_getLast {samples : List ViewSample} {t : ℚ}
    (hs : samples.Pairwise sample_le) :
    find_reference_view samples t =
      ((samples.filter (fun s => s.timestamp ≤ t)).getLast?).map
        (fun s => s.view_count) := by
  induction samples with
  | nil => simp [find_reference_view]
  | cons s rest ih =>
      obtain ⟨hhead, hrest⟩ := List.pairwise_cons.mp hs
      by_cases hst : s.timestamp ≤ t
      · rw [find_reference_view, if_pos hst, ih hrest]
        have hfil : (s :: rest).filter (fun x => x.timestamp ≤ t)
            = s :: rest.filter (fun x => x.timestamp ≤ t) := by
          simp [List.filter_cons, hst]
        rw [hfil, List.getLast?_cons]
        cases hlast : (rest.filter (fun x => x.timestamp ≤ t)).getLast? with
        | none => simp
        | some x => simp
      · rw [find_reference_view, if_neg hst]
        have hfil : (s :: rest).filter (fun x => x.timestamp ≤ t)
            = rest.filter (fun x => x.timestamp ≤ t) := by
          simp [List.filter_cons, hst]
        have hnil : rest.filter (fun x => x.timestamp ≤ t) = [] := by
          rw [List.filter_eq_nil_iff]
          intro a ha
          simp only [decide_eq_true_eq]
          intro hat
          exact hst (le_trans (hhead a ha) hat)
        rw [hfil, hnil]
        simp

theorem foldl_max_lt_iff (l : List ℝ) (i t : ℝ) :
    l.foldl max i < t ↔ i < t ∧ ∀ x ∈ l, x < t := by
  induction l generalizing i with
  | nil => simp
  | cons a l ih =>
      rw [List.foldl_cons, ih]
      simp [max_lt_iff, and_assoc]

theorem sim_max_lt_iff (emb : List ℝ) (ke : List (List ℝ)) (hne : ke ≠ [])
    (t : ℝ) :
    sim_max emb ke < t ↔ ∀ e ∈ ke, cosine_similarity emb e < t := by
  cases ke with
  | nil => exact absurd rfl hne
  | cons k ks =>
      rw [sim_max, foldl_max_lt_iff]
      simp

theorem roundTo_ratCast (n : ℕ) (q : ℚ) :
    roundTo n ((q : ℝ)) = ((round (q * 10 ^ n) : ℤ) : ℚ) / 10 ^ n := by
  unfold roundTo
  have hx : ((q : ℝ) * 10 ^ n) = (((q * 10 ^ n : ℚ)) : ℝ) := by push_cast; ring
  rw [hx, Rat.round_cast]

theorem rank_and_persist_fst_ext (f g : ℕ → Bool) :
    ∀ (l : List SurgeItem) (idx : ℕ) (db1 db2 : DbState),
      (rank_and_persist f l idx db1).1 = (rank_and_persist g l idx db2).1 := by
  intro l
  induction l with
  | nil => intro idx db1 db2; rfl
  | cons it rest ih =>
      intro idx db1 db2
      simp only [rank_and_persist]
      exact congrArg _ (ih (idx + 1) _ _)

theorem rank_and_persist_map_fst {β : Type} (φ : SurgeItem → β)
    (hφ : ∀ it idx, φ { it with trending_rank := idx } = φ it)
    (f : ℕ → Bool) :
    ∀ (l : List SurgeItem) (idx : ℕ) (db : DbState),
      ((rank_and_persist f l idx db).1).map φ = l.map φ := by
  intro l
  induction l with
  | nil => intro idx db; rfl
  | cons it rest ih =>
      intro idx db
      simp only [rank_and_persist, List.map_cons]
      rw [hφ it idx, ih]

theorem rank_and_persist_map_rank (f : ℕ → Bool) :
    ∀ (l : List SurgeItem) (idx : ℕ) (db : DbState),
      ((rank_and_persist f l idx db).1).map (fun it => it.trending_rank)
        = List.range' idx l.length := by
  intro l
  induction l with
  | nil => intro idx db; rfl
  | cons it rest ih =>
      intro idx db
      simp only [rank_and_persist, List.map_cons, List.length_cons]
      rw [ih, List.range'_succ]

theorem filter_score_orderedInsert (s : ℚ) (x : SurgeItem)
    (l : List SurgeItem) :
    (List.orderedInsert surge_key_le x l).filter
        (fun it => it.surge_score = s)
      = if x.surge_score = s
          then x :: l.filter (fun it => it.surge_score = s)
          else l.filter (fun it => it.surge_score = s) := by
  induction l with
  | nil =>
      by_cases hx : x.surge_score = s <;>
        simp [List.orderedInsert, hx]
  | cons y ys ih =>
      rw [List.orderedInsert]
      by_cases hxy : surge_key_le x y
      · rw [if_pos hxy]
        by_cases hx : x.surge_score = s <;> simp [List.filter_cons, hx]
      · rw [if_neg hxy]
        have hlt : x.surge_score < y.surge_score := lt_of_not_le hxy
        by_cases hy : y.surge_score = s
        · have hx : ¬ x.surge_score = s := by
            intro hx
            rw [hx, hy] at hlt
            exact lt_irrefl s hlt
          simp [List.filter_cons, hy, hx, ih]
        · by_cases hx : x.surge_score = s <;>
            simp [List.filter_cons, hy, hx, ih]

theorem filter_score_insertionSort (s : ℚ) (l : List SurgeItem) :
    (sort_by_surge_score l).filter (fun it => it.surge_score = s)
      = l.filter (fun it => it.surge_score = s) := by
  unfold sort_by_surge_score
  induction l with
  | nil => rfl
  | cons x xs ih =>
      rw [List.insertionSort, filter_score_orderedInsert]
      by_cases hx : x.surge_score = s <;> simp [List.filter_cons, hx, ih]

theorem enforce_diversity_step {α : Type} (category channel_id : α → Option String)
    (result : List α) (item : α) :
    (match result.getLast? with
      | some last =>
          if dup_adjacent category channel_id last item then
            result ++ [item]
          else
            result ++ [item]
      | none => result ++ [item]) = result ++ [item] := by
  cases result.getLast? with
  | none => rfl
  | some last => by_cases h : dup_adjacent category channel_id last item <;> simp [h]

theorem enforce_diversity_go {α : Type} (category channel_id : α → Option String)
    (items acc : List α) :
    items.foldl
      (fun result item =>
        match result.getLast? with
        | some last =>
            if dup_adjacent category channel_id last item then
              result ++ [item]
            else
              result ++ [item]
        | none => result ++ [item])
      acc = acc ++ items := by
  induction items generalizing acc with
  | nil => simp
  | cons x xs ih =>
      rw [List.foldl_cons, enforce_diversity_step, ih]
      simp

/-! ## Claim theorems -/

/-- C1 as stated is false: in fetch_popular_videos a channel with exactly one
candidate video and a positive view_count gets
`normalized_view_score = view_count / channel_avg_view = view_count / view_count = 1`,
not its raw view_count.  Concrete input: a single video with view_count 100
returns 1, and 1 is not 100. -/
theorem C1_counterexample :
    normalized_view_score [⟨"ch", 100⟩] ⟨"ch", 100⟩ = 1 ∧
    (PopularRow.view_count ⟨"ch", 100⟩ : ℚ) = 100 ∧ (1 : ℚ) ≠ 100 := by
  refine ⟨?_, by norm_num, by norm_num⟩
  simp [normalized_view_score, channel_avg_view]

/-- C1 amended: in fetch_popular_videos, for every channel with exactly one
video in the candidate set, that video's normalized_view_score equals 1 when
its view_count is positive (the channel average of one video is the video
itself, so the ratio is 1), and equals its raw view_count, that is 0, when its
view_count is 0 (the zero average falls through to the ELSE branch). -/
theorem C1_popular_single_video (rows : List PopularRow) (r : PopularRow)
    (hmem : r ∈ rows)
    (hone : (rows.filter (fun x => x.channel_id = r.channel_id)).length = 1) :
    (0 < r.view_count → normalized_view_score rows r = 1) ∧
    (r.view_count = 0 → normalized_view_score rows r = 0) := by
  have hrf : r ∈ rows.filter (fun x => x.channel_id = r.channel_id) :=
    List.mem_filter.mpr ⟨hmem, by simp⟩
  obtain ⟨a, ha⟩ := List.length_eq_one.mp hone
  have har : a = r := by
    rw [ha] at hrf
    have : r = a := by simpa using hrf
    exact this.symm
  subst har
  have havg : channel_avg_view rows a.channel_id = (a.view_count : ℚ) := by
    unfold channel_avg_view
    rw [ha]
    simp
  constructor
  · intro hpos
    have hposq : (0 : ℚ) < (a.view_count : ℚ) := by exact_mod_cast hpos
    unfold normalized_view_score
    rw [havg, if_pos hposq, div_self (ne_of_gt hposq)]
  · intro hzero
    unfold normalized_view_score
    rw [havg, hzero]
    norm_num

/-- Witness for C1: a concrete single-video channel with positive view_count
has normalized_view_score 1. -/
theorem C1_witness : normalized_view_score [⟨"solo", 5⟩] ⟨"solo", 5⟩ = 1 :=
  (C1_popular_single_video [⟨"solo", 5⟩] ⟨"solo", 5⟩ (by decide) (by decide)).1
    (by decide)

/-- C2 as stated is false: fetch_surge_videos does not resolve view_count_prev
at the velocity_days offset.  The `prev` lateral join selects the most recent
snapshot strictly before the video's latest snapshot date, ignoring
velocity_days.  Concrete input: snapshots (day 0, 100), (day 9, 150),
(day 10, 200), today = day 10, velocity_days = 2.  The code resolves
view_count_prev = 150 (the day-9 snapshot), while the claimed lookup at the
velocity_days offset (most recent snapshot at or before day 8) gives 100. -/
theorem C2_counterexample :
    surge_view_prev [⟨0, 100⟩, ⟨9, 150⟩, ⟨10, 200⟩] none 10 = 150 ∧
    ((spec_prev_lookup [⟨0, 100⟩, ⟨9, 150⟩, ⟨10, 200⟩] 10 2).map
        (fun s => s.view_count)).getD 0 = 100 ∧
    (150 : ℤ) ≠ 100 := by
  decide

/-- C2 amended: in fetch_surge_videos, view_count_prev is resolved as the most
recent snapshot strictly earlier than the video's own latest snapshot date
(the velocity_days offset parameter is computed but unused by this lookup);
when that value equals view_count_now and is positive, the most recent
snapshot dated at least one day before today whose view_count differs from the
current value is used instead, and when no differing value exists within the
available history the previous value is kept, so the delta is zero. -/
theorem C2_surge_prev_resolution (hist : List Snapshot) (vvc : Option ℤ)
    (today vn vp : ℤ)
    (hvn : vn = surge_view_now hist vvc today)
    (hvp : vp = surge_view_prev_raw hist) :
    (∀ p, prev_before_latest hist = some p →
        ∃ m, max_by_date hist = some m ∧ p ∈ hist ∧
          p.snapshot_date < m.snapshot_date ∧
          ∀ q ∈ hist, q.snapshot_date < m.snapshot_date →
            q.snapshot_date ≤ p.snapshot_date) ∧
    (vp ≠ vn ∨ vp ≤ 0 → surge_view_prev hist vvc today = vp) ∧
    (vp = vn → 0 < vp → ∀ a, alt_distinct_snapshot hist today vn = some a →
        surge_view_prev hist vvc today = a.view_count ∧
        a ∈ hist ∧ a.snapshot_date ≤ today - 1 ∧ a.view_count ≠ vn ∧
        ∀ q ∈ hist, q.snapshot_date ≤ today - 1 → q.view_count ≠ vn →
          q.snapshot_date ≤ a.snapshot_date) ∧
    (vp = vn → 0 < vp → alt_distinct_snapshot hist today vn = none →
        surge_view_prev hist vvc today = vp ∧
        ∀ q ∈ hist, q.snapshot_date ≤ today - 1 → q.view_count = vn) := by
  subst hvn hvp
  refine ⟨?_, ?_, ?_, ?_⟩
  · intro p hp
    unfold prev_before_latest at hp
    cases hm : max_by_date hist with
    | none => rw [hm] at hp; simp at hp
    | some m =>
        rw [hm] at hp
        have hmemf := max_by_date_mem hp
        have hmem := List.mem_filter.mp hmemf
        refine ⟨m, rfl, hmem.1, by simpa using hmem.2, fun q hq hqlt => ?_⟩
        exact max_by_date_le hp q (List.mem_filter.mpr ⟨hq, by simpa using hqlt⟩)
  · intro hcase
    have hcond : ¬ (surge_view_prev_raw hist = surge_view_now hist vvc today ∧
        0 < surge_view_prev_raw hist) := by
      rintro ⟨heq, hpos⟩
      rcases hcase with hne | hle
      · exact hne heq
      · exact absurd hpos (not_lt.mpr hle)
    unfold surge_view_prev resolve_view_prev
    rw [if_neg hcond]
  · intro heq hpos a ha
    have hmemf := max_by_date_mem ha
    have hmem := List.mem_filter.mp hmemf
    have hprops : a.snapshot_date ≤ today - 1 ∧
        a.view_count ≠ surge_view_now hist vvc today := by
      have := hmem.2
      simpa using this
    refine ⟨?_, hmem.1, hprops.1, hprops.2, fun q hq h1 h2 => ?_⟩
    · unfold surge_view_prev resolve_view_prev
      rw [if_pos ⟨heq, hpos⟩, ha]
      simp
    · exact max_by_date_le ha q (List.mem_filter.mpr ⟨hq, by simp [h1, h2]⟩)
  · intro heq hpos halt
    constructor
    · unfold surge_view_prev resolve_view_prev
      rw [if_pos ⟨heq, hpos⟩, halt]
      simp
    · intro q hq h1
      by_contra h2
      have hfil : hist.filter
          (fun s => s.snapshot_date ≤ today - 1 ∧
            s.view_count ≠ surge_view_now hist vvc today) = [] := by
        have := halt
        unfold alt_distinct_snapshot at this
        exact max_by_date_eq_none.mp this
      have : q ∈ hist.filter
          (fun s => s.snapshot_date ≤ today - 1 ∧
            s.view_count ≠ surge_view_now hist vvc today) :=
        List.mem_filter.mpr ⟨hq, by simp [h1, h2]⟩
      rw [hfil] at this
      simp at this

/-- Witness for C2: a concrete fallback case.  Snapshots (day 5, 80),
(day 9, 120), (day 10, 120): the raw prev equals the current value 120, so the
nearest earlier distinct snapshot (day 5, 80) is used. -/
theorem C2_witness :
    surge_view_prev [⟨5, 80⟩, ⟨9, 120⟩, ⟨10, 120⟩] none 10 = 80 :=
  ((C2_surge_prev_resolution [⟨5, 80⟩, ⟨9, 120⟩, ⟨10, 120⟩] none 10 120 120
      (by decide) (by decide)).2.2.1 (by decide) (by decide) ⟨5, 80⟩
      (by decide)).1

/-- C3: in fetch_surge_videos, the computed surge_score equals
growth_rate*100 + view_velocity/1000 + 0.1*ln(max(view_count_now,1)+10)
+ freshness_with_bonus*50, and the built item stores the 2-decimal rounding
of this total together with the four component values. -/
theorem C3_surge_score_components (now : ℝ) (r : SurgeRow) (alt : Option ℤ)
    (view_now view_velocity : ℤ) (growth_rate fwb : ℝ) :
    surge_score view_now view_velocity growth_rate fwb
      = growth_rate * 100 + (view_velocity : ℝ) / 1000
        + 0.1 * Real.log (((max view_now 1 : ℤ) : ℝ) + 10) + fwb * 50 ∧
    surge_row_total now r alt
      = surge_row_growth r alt * 100 + (r.view_velocity : ℝ) / 1000
        + 0.1 * Real.log (((max r.view_count 1 : ℤ) : ℝ) + 10)
        + surge_row_fwb now r * 50 ∧
    (build_surge_item now r alt).surge_score
      = roundTo 2 (surge_row_total now r alt) ∧
    (build_surge_item now r alt).surge_components
      = (roundTo 2 (growth_factor (surge_row_growth r alt)),
         roundTo 2 (velocity_factor r.view_velocity),
         roundTo 2 (base_popularity r.view_count * 0.1),
         roundTo 2 (freshness_factor (surge_row_fwb now r))) := by
  have hform : ∀ (vn vv : ℤ) (g f : ℝ), surge_score vn vv g f
      = g * 100 + (vv : ℝ) / 1000
        + 0.1 * Real.log (((max vn 1 : ℤ) : ℝ) + 10) + f * 50 := by
    intro vn vv g f
    unfold surge_score growth_factor velocity_factor base_popularity
      freshness_factor
    ring
  exact ⟨hform view_now view_velocity growth_rate fwb,
    hform r.view_count r.view_velocity (surge_row_growth r alt)
      (surge_row_fwb now r), rfl, rfl⟩

/-- C5: the freshness score of fetch_surge_videos is exp(-0.05*age_hours):
strictly decreasing in age_hours and equal to 1 at age 0; an unknown
published_at yields the neutral freshness 0.5 and bonus 1.0. -/
theorem C5_freshness_decay (now : ℝ) (r : SurgeRow) (alt : Option ℤ) :
    (∀ a : ℝ, freshness_score a = Real.exp (-0.05 * a)) ∧
    (∀ a b : ℝ, a < b → freshness_score b < freshness_score a) ∧
    freshness_score 0 = 1 ∧
    (r.published_at = none →
      surge_row_fwb now r = 0.5 ∧
      (build_surge_item now r alt).freshness_score = 1 / 2 ∧
      (build_surge_item now r alt).freshness_bonus = 1) := by
  refine ⟨fun a => rfl, ?_, ?_, ?_⟩
  · intro a b hab
    unfold freshness_score freshness_decay_rate
    apply Real.exp_lt_exp.mpr
    nlinarith
  · unfold freshness_score freshness_decay_rate
    norm_num
  · intro hnone
    have hage : row_age_hours now r = none := by
      simp [row_age_hours, hnone]
    refine ⟨by simp [surge_row_fwb, hage], ?_, ?_⟩
    case refine_2 =>
      simp only [build_surge_item, hage]
      norm_num
    have h05 : (0.5 : ℝ) = ((1 / 2 : ℚ) : ℝ) := by norm_num
    simp only [build_surge_item, hage]
    rw [h05, roundTo_ratCast]
    norm_num [round_eq]

/-- Witness for C5: the freshness score strictly drops from age 0 to age 1,
and an item with unknown published_at stores freshness 1/2. -/
theorem C5_witness :
    freshness_score 1 < freshness_score 0 ∧
    (build_surge_item 0 ⟨"v", none, 0, 0, 0, none⟩ none).freshness_score
      = 1 / 2 :=
  ⟨(C5_freshness_decay 0 ⟨"v", none, 0, 0, 0, none⟩ none).2.1 0 1 zero_lt_one,
   ((C5_freshness_decay 0 ⟨"v", none, 0, 0, 0, none⟩ none).2.2.2 rfl).2.1⟩

/-- C9: a failure of the trend_score cache writes (any subset of per-item
upserts, and the final commit) never changes the list fetch_surge_videos
returns: the returned items and their order are identical under any failure
pattern. -/
theorem C9_cache_write_failure_invisible (now : ℝ)
    (rows : List (SurgeRow × Option ℤ)) (f g : ℕ → Bool) (cf cg : Bool)
    (db : DbState) :
    (fetch_surge_videos now rows f cf db).1
      = (fetch_surge_videos now rows g cg db).1 := by
  unfold fetch_surge_videos
  exact rank_and_persist_fst_ext f g _ 1 db db

/-- C4 as stated is false in one clause: the sort key is the STORED
surge_score, which is rounded to two decimals, so ties are broken by the
rounded score and original order, not by the composite score's full
precision.  Concrete input: the store returns rowB before rowA (rowB has the
larger SQL velocity); rowA's full-precision composite exceeds rowB's, but
both round to 88.30, so the returned order keeps rowB first — not descending
in the full-precision score. -/
theorem C4_counterexample :
    ((fetch_surge_videos 0 [(rowB, none), (rowA, none)] (fun _ => false)
        false ⟨[], []⟩).1).map (fun it => it.video_id) = ["B", "A"] ∧
    surge_row_total 0 rowB none < surge_row_total 0 rowA none ∧
    (build_surge_item 0 rowA none).surge_score
      = (build_surge_item 0 rowB none).surge_score := by
  have hgA : surge_row_growth rowA none = (31062 : ℝ) / 100000 := by
    have hprev : surge_row_prev rowA none = 100000 := by
      unfold surge_row_prev resolve_view_prev rowA
      norm_num
    unfold surge_row_growth
    rw [hprev]
    unfold surge_growth_rate
    rw [if_pos (by norm_num : (0 : ℤ) < 100000)]
    norm_num [rowA]
  have hgB : surge_row_growth rowB none = (42629 : ℝ) / 219505 := by
    have hprev : surge_row_prev rowB none = 219505 := by
      unfold surge_row_prev resolve_view_prev rowB
      norm_num
    unfold surge_row_growth
    rw [hprev]
    unfold surge_growth_rate
    rw [if_pos (by norm_num : (0 : ℤ) < 219505)]
    norm_num [rowB]
  have hfwbA : surge_row_fwb 0 rowA = 0.5 := by
    simp [surge_row_fwb, row_age_hours, rowA]
  have hfwbB : surge_row_fwb 0 rowB = 0.5 := by
    simp [surge_row_fwb, row_age_hours, rowB]
  have hlogA : base_popularity 131062 = 17 * Real.log 2 := by
    unfold base_popularity
    have h1 : ((max (131062 : ℤ) 1 : ℤ) : ℝ) + 10 = 2 ^ 17 := by
      rw [max_eq_left (by norm_num : (1 : ℤ) ≤ 131062)]
      norm_num
    rw [h1, Real.log_pow]
    norm_num
  have hlogB : base_popularity 262134 = 18 * Real.log 2 := by
    unfold base_popularity
    have h1 : ((max (262134 : ℤ) 1 : ℤ) : ℝ) + 10 = 2 ^ 18 := by
      rw [max_eq_left (by norm_num : (1 : ℤ) ≤ 262134)]
      norm_num
    rw [h1, Real.log_pow]
    norm_num
  have htotA : surge_row_total 0 rowA none
      = (31062 : ℝ) / 100000 * 100 + 31062 / 1000
        + 17 * Real.log 2 * 0.1 + 0.5 * 50 := by
    unfold surge_row_total surge_score growth_factor velocity_factor
      freshness_factor
    rw [hgA, hfwbA]
    rw [show rowA.view_count = 131062 from rfl,
      show rowA.view_velocity = 31062 from rfl, hlogA]
    push_cast
    ring
  have htotB : surge_row_total 0 rowB none
      = (42629 : ℝ) / 219505 * 100 + 42629 / 1000
        + 18 * Real.log 2 * 0.1 + 0.5 * 50 := by
    unfold surge_row_total surge_score growth_factor velocity_factor
      freshness_factor
    rw [hgB, hfwbB]
    rw [show rowB.view_count = 262134 from rfl,
      show rowB.view_velocity = 42629 from rfl, hlogB]
    push_cast
    ring
  have hroundA : (build_surge_item 0 rowA none).surge_score = 8830 / 100 := by
    show roundTo 2 (surge_row_total 0 rowA none) = 8830 / 100
    unfold roundTo
    rw [round_eq]
    have hfl : ⌊surge_row_total 0 rowA none * 10 ^ 2 + 1 / 2⌋ = 8830 := by
      rw [Int.floor_eq_iff, htotA]
      constructor
      · nlinarith [Real.log_two_gt_d9]
      · nlinarith [Real.log_two_lt_d9]
    rw [hfl]
    norm_num
  have hroundB : (build_surge_item 0 rowB none).surge_score = 8830 / 100 := by
    show roundTo 2 (surge_row_total 0 rowB none) = 8830 / 100
    unfold roundTo
    rw [round_eq]
    have hfl : ⌊surge_row_total 0 rowB none * 10 ^ 2 + 1 / 2⌋ = 8830 := by
      rw [Int.floor_eq_iff, htotB]
      constructor
      · nlinarith [Real.log_two_gt_d9]
      · nlinarith [Real.log_two_lt_d9]
    rw [hfl]
    norm_num
  have hscore : (build_surge_item 0 rowA none).surge_score
      = (build_surge_item 0 rowB none).surge_score :=
    hroundA.trans hroundB.symm
  have hkey : surge_key_le (build_surge_item 0 rowB none)
      (build_surge_item 0 rowA none) := le_of_eq hscore
  have hsorted : sort_by_surge_score
      [build_surge_item 0 rowB none, build_surge_item 0 rowA none]
      = [build_surge_item 0 rowB none, build_surge_item 0 rowA none] := by
    unfold sort_by_surge_score
    simp only [List.insertionSort, List.orderedInsert]
    rw [if_pos hkey]
  refine ⟨?_, ?_, hscore⟩
  · unfold fetch_surge_videos
    rw [show ([(rowB, none), (rowA, none)]
          : List (SurgeRow × Option ℤ)).map
            (fun p => build_surge_item 0 p.1 p.2)
        = [build_surge_item 0 rowB none, build_surge_item 0 rowA none]
        from rfl]
    rw [rank_and_persist_map_fst (fun it => it.video_id)
      (fun it idx => rfl) (fun _ => false) _ 1 ⟨[], []⟩]
    rw [hsorted]
    rfl
  · rw [htotA, htotB]
    nlinarith [Real.log_two_gt_d9, Real.log_two_lt_d9]

/-- C4 amended: fetch_surge_videos returns the candidates sorted descending
by the STORED surge_score (the 2-decimal rounding of the composite), the sort
is stable (candidates with equal stored scores keep their original order),
and trending_rank is the dense sequence 1..N with no ties. -/
theorem C4_sorted_dense_rank (now : ℝ) (rows : List (SurgeRow × Option ℤ))
    (f : ℕ → Bool) (cf : Bool) (db : DbState) :
    List.Pairwise surge_key_le
      (sort_by_surge_score (rows.map (fun p => build_surge_item now p.1 p.2))) ∧
    (sort_by_surge_score
        (rows.map (fun p => build_surge_item now p.1 p.2))).Perm
      (rows.map (fun p => build_surge_item now p.1 p.2)) ∧
    (∀ s : ℚ,
      (sort_by_surge_score
          (rows.map (fun p => build_surge_item now p.1 p.2))).filter
        (fun it => it.surge_score = s)
      = (rows.map (fun p => build_surge_item now p.1 p.2)).filter
        (fun it => it.surge_score = s)) ∧
    ((fetch_surge_videos now rows f cf db).1).map (fun it => it.video_id)
      = (sort_by_surge_score
          (rows.map (fun p => build_surge_item now p.1 p.2))).map
        (fun it => it.video_id) ∧
    ((fetch_surge_videos now rows f cf db).1).map (fun it => it.surge_score)
      = (sort_by_surge_score
          (rows.map (fun p => build_surge_item now p.1 p.2))).map
        (fun it => it.surge_score) ∧
    ((fetch_surge_videos now rows f cf db).1).map
        (fun it => it.trending_rank) = List.range' 1 rows.length ∧
    (((fetch_surge_videos now rows f cf db).1).map
        (fun it => it.trending_rank)).Nodup := by
  have hlen : (sort_by_surge_score
      (rows.map (fun p => build_surge_item now p.1 p.2))).length
      = rows.length := by
    unfold sort_by_surge_score
    rw [(List.perm_insertionSort surge_key_le _).length_eq, List.length_map]
  refine ⟨List.sorted_insertionSort surge_key_le _,
    List.perm_insertionSort surge_key_le _,
    fun s => filter_score_insertionSort s _, ?_, ?_, ?_, ?_⟩
  · unfold fetch_surge_videos
    exact rank_and_persist_map_fst (fun it => it.video_id)
      (fun it idx => rfl) f _ 1 db
  · unfold fetch_surge_videos
    exact rank_and_persist_map_fst (fun it => it.surge_score)
      (fun it idx => rfl) f _ 1 db
  · unfold fetch_surge_videos
    rw [rank_and_persist_map_rank, hlen]
  · unfold fetch_surge_videos
    rw [rank_and_persist_map_rank]
    exact List.nodup_range' _ _

/-- C6: in compute_surge_features, for a time-ordered sample series with last
sample ns, and any window w: when no sample is at or before now - w minutes
the three window outputs are all None; otherwise, with prev the last such
sample, delta = views_now - prev, growth = delta / max(prev, 1) and
velocity = delta / max(elapsed_minutes, 1) with elapsed_minutes = w.  The
record fields of compute_surge_features are wired to this computation at the
four windows. -/
theorem C6_windowed_features (samples : List ViewSample)
    (hs : samples.Pairwise sample_le) (ns : ViewSample)
    (hlast : samples.getLast? = some ns) (w : ℤ) :
    (samples.filter (fun s => s.timestamp ≤ ns.timestamp - (w : ℚ)) = [] →
      delta_and_growth samples ns.timestamp ns.view_count w
        = (none, none, none)) ∧
    (∀ p, (samples.filter
        (fun s => s.timestamp ≤ ns.timestamp - (w : ℚ))).getLast? = some p →
      delta_and_growth samples ns.timestamp ns.view_count w =
        (some ((ns.view_count - p.view_count : ℤ) : ℚ),
         some (((ns.view_count - p.view_count : ℤ) : ℚ) /
           ((max p.view_count 1 : ℤ) : ℚ)),
         some (((ns.view_count - p.view_count : ℤ) : ℚ) / max (w : ℚ) 1))) ∧
    (∀ published_at w10 w30 w1h w6h baseline co,
      let f := compute_surge_features samples published_at w10 w30 w1h w6h
        baseline co
      f.delta_views_10m
          = (delta_and_growth samples ns.timestamp ns.view_count w10).1 ∧
      f.growth_rate_10m
          = (delta_and_growth samples ns.timestamp ns.view_count w10).2.1 ∧
      f.velocity_10m_per_min
          = (delta_and_growth samples ns.timestamp ns.view_count w10).2.2 ∧
      f.delta_views_30m
          = (delta_and_growth samples ns.timestamp ns.view_count w30).1 ∧
      f.growth_rate_30m
          = (delta_and_growth samples ns.timestamp ns.view_count w30).2.1 ∧
      f.delta_views_1h
          = (delta_and_growth samples ns.timestamp ns.view_count w1h).1 ∧
      f.growth_rate_1h
          = (delta_and_growth samples ns.timestamp ns.view_count w1h).2.1 ∧
      f.delta_views_6h
          = (delta_and_growth samples ns.timestamp ns.view_count w6h).1 ∧
      f.growth_rate_6h
          = (delta_and_growth samples ns.timestamp ns.view_count w6h).2.1) := by
  have hsort : List.insertionSort sample_le samples = samples :=
    List.Sorted.insertionSort_eq hs
  refine ⟨?_, ?_, ?_⟩
  · intro hfil
    simp only [delta_and_growth, find_reference_eq_getLast hs, hfil]
    simp
  · intro p hp
    have hbase : ((if 0 < p.view_count then p.view_count else 1 : ℤ) : ℚ)
        = ((max p.view_count 1 : ℤ) : ℚ) := by
      by_cases hpos : 0 < p.view_count
      · rw [if_pos hpos, max_eq_left (by omega : (1 : ℤ) ≤ p.view_count)]
      · rw [if_neg hpos, max_eq_right (by omega : p.view_count ≤ (1 : ℤ))]
    have helap : max (ns.timestamp - (ns.timestamp - (w : ℚ))) 1
        = max (w : ℚ) 1 := by
      rw [sub_sub_cancel]
    simp only [delta_and_growth, find_reference_eq_getLast hs, hp,
      Option.map_some']
    rw [hbase, helap]
  · intro published_at w10 w30 w1h w6h baseline co
    refine ⟨?_, ?_, ?_, ?_, ?_, ?_, ?_, ?_, ?_⟩ <;>
      simp [compute_surge_features, hsort, hlast]

/-- Witness for C6: samples at minute 0 (100 views) and minute 15
(160 views), 10-minute window: the reference sample is the one at minute 0,
delta 60, growth 60/100, velocity 60/10. -/
theorem C6_witness :
    delta_and_growth [⟨0, 100⟩, ⟨15, 160⟩] 15 160 10 =
      (some 60, some (3 / 5), some 6) := by
  have h := (C6_windowed_features [⟨0, 100⟩, ⟨15, 160⟩] (by decide)
      ⟨15, 160⟩ (by decide) 10).2.1 ⟨0, 100⟩ (by norm_num [List.filter])
  rw [h, max_eq_left (by norm_num : (1 : ℤ) ≤ 100),
    max_eq_left (by norm_num : (1 : ℚ) ≤ ((10 : ℤ) : ℚ))]
  norm_num

/-- C7: in fetch_rising_videos, view_velocity is never negative: for a positive
velocity_days it equals `max(current - prev, 0)` divided by velocity_days
(integer division; the difference is floored at zero before dividing), and that
value is nonnegative. -/
theorem C7_rising_velocity_nonneg (curr prev velocity_days : ℤ)
    (h : 0 < velocity_days) :
    rising_view_velocity curr prev velocity_days
      = some (max (curr - prev) 0 / velocity_days) ∧
    ∀ v, rising_view_velocity curr prev velocity_days = some v → 0 ≤ v := by
  have hne : velocity_days ≠ 0 := ne_of_gt h
  have heq : rising_view_velocity curr prev velocity_days
      = some (max (curr - prev) 0 / velocity_days) := by
    unfold rising_view_velocity
    rw [if_neg hne, Int.tdiv_eq_ediv (le_max_right _ _) (le_of_lt h)]
  refine ⟨heq, fun v hv => ?_⟩
  rw [heq] at hv
  obtain rfl : max (curr - prev) 0 / velocity_days = v := Option.some.inj hv
  exact Int.ediv_nonneg (le_max_right _ _) (le_of_lt h)

/-- Witness for C7: a declining video (current 100, prev 150, velocity_days 1)
has view_velocity 0, not a negative value. -/
theorem C7_witness : rising_view_velocity 100 150 1 = some 0 :=
  ((C7_rising_velocity_nonneg 100 150 1 (by decide)).1).trans (by decide)

/-- C8: in `_dedup_by_embedding` with threshold 0.9, a candidate is appended
to the kept list exactly when its cosine similarity to every already-kept
embedding is strictly below 0.9 (the first item is kept unconditionally,
matching the vacuous case), and it is skipped when some kept embedding
reaches 0.9.  At the boundary: two unit vectors with cosine similarity
exactly 0.9 have the second removed, while at similarity 0.8 both are kept. -/
theorem C8_dedup_threshold :
    (∀ (α : Type) (kept : List α) (ke : List (List ℝ)) (item : α)
        (emb : List ℝ),
      ((∀ e ∈ ke, cosine_similarity emb e < 0.9) →
        dedup_step 0.9 (kept, ke) (item, emb)
          = (kept ++ [item], ke ++ [emb])) ∧
      ((∃ e ∈ ke, 0.9 ≤ cosine_similarity emb e) →
        dedup_step 0.9 (kept, ke) (item, emb) = (kept, ke))) ∧
    dedup_by_embedding [0, 1]
      (some [[1, 0], [0.9, Real.sqrt 0.19]]) 0.9 = [0] ∧
    dedup_by_embedding [0, 1] (some [[1, 0], [(0.8 : ℝ), 0.6]]) 0.9
      = [0, 1] := by
  have hself : ∀ x y : ℝ, dot [x, y] [x, y] = x * x + y * y := by
    intro x y
    simp [dot]
  have hcross : ∀ x y : ℝ, dot [x, y] [1, 0] = x := by
    intro x y
    simp [dot]
  have hcos : ∀ x y : ℝ, x * x + y * y = 1 →
      cosine_similarity [x, y] [1, 0] = x := by
    intro x y hxy
    have h1 : dot [x, y] [x, y] = 1 := by rw [hself, hxy]
    have h2 : dot [(1 : ℝ), 0] [1, 0] = 1 := by
      have := hself 1 0
      simpa using this
    rw [cosine_similarity, h1, h2, hcross]
    rw [Real.sqrt_one]
    norm_num
  refine ⟨?_, ?_, ?_⟩
  · intro α kept ke item emb
    constructor
    · intro hall
      by_cases hke : ke = []
      · subst hke
        simp [dedup_step]
      · have hlt : sim_max emb ke < 0.9 :=
          (sim_max_lt_iff emb ke hke 0.9).mpr hall
        simp [dedup_step, hke, not_le.mpr hlt]
    · rintro ⟨e, he, hge⟩
      have hke : ke ≠ [] := by
        intro hnil
        rw [hnil] at he
        simp at he
      have hnlt : ¬ sim_max emb ke < 0.9 := fun hlt =>
        absurd ((sim_max_lt_iff emb ke hke 0.9).mp hlt e he)
          (not_lt.mpr hge)
      simp [dedup_step, hke, not_lt.mp hnlt]
  · have h19 : Real.sqrt 0.19 * Real.sqrt 0.19 = 0.19 :=
      Real.mul_self_sqrt (by norm_num)
    have hc : cosine_similarity [0.9, Real.sqrt 0.19] [1, 0] = 0.9 :=
      hcos 0.9 (Real.sqrt 0.19) (by rw [h19]; norm_num)
    simp [dedup_by_embedding, dedup_step, sim_max, hc]
  · have hc : cosine_similarity [(0.8 : ℝ), 0.6] [1, 0] = 0.8 :=
      hcos 0.8 0.6 (by norm_num)
    have hnle : ¬ ((0.9 : ℝ) ≤ 0.8) := by norm_num
    simp [dedup_by_embedding, dedup_step, sim_max, hc, hnle]

/-- Witness for C8: a fresh item whose similarity to the single kept
embedding is 0 (its own embedding has zero magnitude) is appended. -/
theorem C8_witness :
    dedup_step 0.9 (([0] : List ℕ), [[1, 0]]) (1, [(0 : ℝ), 0])
      = ([0, 1], [[1, 0], [0, 0]]) := by
  have hz : cosine_similarity [(0 : ℝ), 0] [1, 0] = 0 := by
    have h0 : dot [(0 : ℝ), 0] [0, 0] = 0 := by simp [dot]
    rw [cosine_similarity, h0]
    simp
  have h := (C8_dedup_threshold.1 ℕ [0] [[1, 0]] 1 [(0 : ℝ), 0]).1
    (by
      intro e he
      have he' : e = [(1 : ℝ), 0] := by simpa using he
      rw [he', hz]
      norm_num)
  simpa using h

/-- C10: `_enforce_diversity` is the identity function: for every input list
it returns the same items in the same order, because both branches of the
adjacency check append the item at the end of the output. -/
theorem C10_enforce_diversity_identity {α : Type}
    (category channel_id : α → Option String) (items : List α) :
    enforce_diversity category channel_id items = items := by
  unfold enforce_diversity
  simpa using enforce_diversity_go category channel_id items []

end Trendix
